import Mathlib

/-!
Verification development for the kitchen calendar kiosk's sync and
materialization core (src/server/src/services/sync.service.js and
src/server/src/db/{events,sync-metadata,calendar-sources}.js,
plus the calendars data-access layer).

The JavaScript is shallowly embedded: machine time is Int milliseconds
since the Unix epoch, database tables are lists of row structures,
network and external-library effects (node-fetch, tsdav, ical.js parse
and recurrence iteration) are oracle inputs, and JS truthiness on
nullable values is modelled explicitly.
-/

set_option autoImplicit false

namespace Kitchen

/-- JS `x || d` for a nullable string: null/undefined and the empty string
are falsy and fall back to the default. -/
def jsOrD (s : Option String) (d : String) : String :=
  match s with
  | some v => if v = "" then d else v
  | none => d

/-- JS `x || null` for a nullable string: the empty string collapses to null. -/
def jsStrOrNull (s : Option String) : Option String :=
  match s with
  | some v => if v = "" then none else some v
  | none => none

/-- JS truthiness test for a nullable millisecond timestamp (`x ? ... : null`):
null and 0 are falsy. -/
def jsMsOrNull (t : Option Int) : Option Int :=
  match t with
  | some v => if v = 0 then none else some v
  | none => none

/-! ## Proleptic Gregorian calendar arithmetic (ECMAScript Date.UTC model)

Lean's Int division is Euclidean; for positive divisors it coincides with
floor division, which is what the day-number algebra below needs. -/

/-- Day number (days since 1970-01-01) of a civil date, months 1..12.
Linear in the day argument, so out-of-range days extend consistently. -/
def daysFromCivil (y m d : Int) : Int :=
  let y2 := if m ≤ 2 then y - 1 else y
  let era := y2 / 400
  let yoe := y2 - era * 400
  let mp := (m + 9) % 12
  let doy := (153 * mp + 2) / 5 + d - 1
  let doe := yoe * 365 + yoe / 4 - yoe / 100 + doy
  era * 146097 + doe - 719468

/-- ECMAScript MakeDay: month index is 0-based and normalized into the year. -/
def jsMakeDay (year monthIndex day : Int) : Int :=
  daysFromCivil (year + monthIndex / 12) ((monthIndex % 12) + 1) day

/-- ECMAScript Date.UTC(year, monthIndex, day, hour, minute, second) in ms. -/
def dateUTC (year monthIndex day hour minute second : Int) : Int :=
  jsMakeDay year monthIndex day * 86400000 +
    hour * 3600000 + minute * 60000 + second * 1000

/-! ## ical.js value model (external library boundary) -/

/-- An ical.js timezone object attached to a time value. The
utcAdjustMinutes field models the zone data the library consults in
toJSDate: minutes added to the literal clock reading to reach UTC. -/
structure ICalZone where
  tzid : Option String
  utcAdjustMinutes : Int
deriving DecidableEq

/-- An ICAL.Time value: literal calendar components plus an optional zone.
isDate marks date-only (all-day) values. -/
structure ICalTime where
  isDate : Bool
  year : Int
  month : Int
  day : Int
  hour : Int
  minute : Int
  second : Int
  zone : Option ICalZone
deriving DecidableEq

/-- ical.js toJSDate: the absolute instant of the literal clock reading
under the attached zone (no zone: treated as UTC by this model). -/
def ICalTime.toJSDate (t : ICalTime) : Int :=
  dateUTC t.year (t.month - 1) t.day t.hour t.minute t.second +
    (match t.zone with
     | some z => z.utcAdjustMinutes
     | none => 0) * 60000

/-- ical.js toUnixTime: epoch seconds of the instant. -/
def ICalTime.toUnixTime (t : ICalTime) : Int :=
  t.toJSDate / 1000

/-- Per-occurrence detail record returned by event.getOccurrenceDetails. -/
structure OccurrenceDetails where
  startDate : Option ICalTime
  endDate : Option ICalTime

/-- An ICAL.Event component. The recurrence iterator and occurrence
details are carried as functions, modelling the external library: iter
takes the seed passed to event.iterator (the window start instant, or
none) and yields the n-th candidate occurrence time, none once the rule
is exhausted. -/
structure VEvent where
  uid : String
  summary : Option String
  description : Option String
  location : Option String
  startDate : Option ICalTime
  endDate : Option ICalTime
  isRecurring : Bool
  iter : Option Int → Nat → Option ICalTime
  getOccDetails : ICalTime → OccurrenceDetails

/-- Process environment and host facts the sync service reads:
DEFAULT_TIMEZONE, and the server's own UTC offset in minutes (the value
getTimezoneOffset returns when a zoneless date string is parsed). -/
structure Env where
  defaultTimezone : Option String
  serverOffsetMinutes : Int
deriving DecidableEq

/-! ## sync.service.js helpers: extractTimezone, icalTimeToDate -/

/-- sync.service.js extractTimezone: date-only values carry no zone; a
missing zone, missing tzid, or the literal tzid "floating" resolves to
DEFAULT_TIMEZONE (fallback America/Chicago); otherwise the tzid. -/
def extractTimezone (t : Option ICalTime) (env : Env) : Option String :=
  match t with
  | none => none
  | some t =>
    if t.isDate then none
    else
      let defaultTimezone := jsOrD env.defaultTimezone "America/Chicago"
      match t.zone with
      | none => some defaultTimezone
      | some z =>
        match z.tzid with
        | none => some defaultTimezone
        | some tzid =>
          if tzid = "" ∨ tzid = "floating" then some defaultTimezone
          else some tzid

/-- sync.service.js icalTimeToDate. Date-only values are pinned to 12:00
UTC on their calendar date. Floating timed values (no zone object, or
tzid "floating") with a detected timezone are parsed as a zoneless local
date string (hence the server offset term) and then shifted by a
hard-coded CST offset of 360 minutes. Everything else goes through the
library's toJSDate. -/
def icalTimeToDate (t : Option ICalTime) (detectedTimezone : Option String)
    (env : Env) : Option Int :=
  match t with
  | none => none
  | some t =>
    if t.isDate then
      some (dateUTC t.year (t.month - 1) t.day 12 0 0)
    else
      let isFloating :=
        match t.zone with
        | none => true
        | some z => z.tzid == some "floating"
      let detectedTruthy :=
        match detectedTimezone with
        | some s => s != ""
        | none => false
      if isFloating && detectedTruthy then
        let localDate :=
          dateUTC t.year (t.month - 1) t.day t.hour t.minute t.second +
            env.serverOffsetMinutes * 60000
        let cstOffsetMinutes : Int := 360
        let adjustmentMinutes := cstOffsetMinutes - env.serverOffsetMinutes
        some (localDate + adjustmentMinutes * 60000)
      else
        some t.toJSDate

/-! ## parseICSData (occurrence materializer) -/

/-- One materialized occurrence as pushed by parseICSData (start and end
are JS Date instants or null). -/
structure SyncEvent where
  id : String
  title : String
  start : Option Int
  endTime : Option Int
  allDay : Bool
  description : String
  location : String
  calendarId : String
  calendarName : String
  isRecurring : Bool
  timezone : Option String
deriving DecidableEq

/-- Safety limit on occurrences considered for a single recurring event. -/
def maxOccurrences : Nat := 500

/-- Build the occurrence pushed for one candidate time of a recurring event. -/
def mkRecurringEvent (ev : VEvent) (env : Env)
    (calendarName calendarId : String) (next : ICalTime) : SyncEvent :=
  let occ := ev.getOccDetails next
  let startTz := extractTimezone occ.startDate env
  { id := ev.uid ++ "_" ++ toString next.toUnixTime
    title := jsOrD ev.summary "Untitled Event"
    start := icalTimeToDate occ.startDate startTz env
    endTime := icalTimeToDate occ.endDate startTz env
    allDay := (match occ.startDate with
               | some t => t.isDate
               | none => false)
    description := jsOrD ev.description ""
    location := jsOrD ev.location ""
    calendarId := calendarId
    calendarName := calendarName
    isRecurring := true
    timezone := startTz }

/-- The recurrence expansion loop of parseICSData. The fuel argument is
maxOccurrences minus the occurrences counted so far; both the
skip-before-window branch and the emit branch consume one unit, exactly
as occurrenceCount++ does in the source. Window comparisons are instant
comparisons (ICAL.Time.compare against ICAL.Time.fromJSDate of the
bound). -/
def expandLoop (ev : VEvent) (env : Env) (calendarName calendarId : String)
    (timeMin timeMax : Option Int) (stream : Nat → Option ICalTime) :
    Nat → Nat → List SyncEvent
  | _, 0 => []
  | i, fuel + 1 =>
    match stream i with
    | none => []
    | some next =>
      if (match timeMax with
          | some mx => decide (mx < next.toJSDate)
          | none => false) then []
      else if (match timeMin with
               | some mn => decide (next.toJSDate < mn)
               | none => false) then
        expandLoop ev env calendarName calendarId timeMin timeMax stream (i + 1) fuel
      else
        mkRecurringEvent ev env calendarName calendarId next ::
          expandLoop ev env calendarName calendarId timeMin timeMax stream (i + 1) fuel

/-- The occurrence pushed for a non-recurring event. -/
def mkSingleEvent (ev : VEvent) (env : Env)
    (calendarName calendarId : String) : SyncEvent :=
  let startTz := extractTimezone ev.startDate env
  { id := ev.uid
    title := jsOrD ev.summary "Untitled Event"
    start := icalTimeToDate ev.startDate startTz env
    endTime := icalTimeToDate ev.endDate startTz env
    allDay := (match ev.startDate with
               | some t => t.isDate
               | none => false)
    description := jsOrD ev.description ""
    location := jsOrD ev.location ""
    calendarId := calendarId
    calendarName := calendarName
    isRecurring := false
    timezone := startTz }

/-- Per-vevent processing inside parseICSData: recurring events run the
expansion loop seeded with the window start; non-recurring events are
window-filtered and emitted singly. -/
def processVEvent (env : Env) (calendarName calendarId : String)
    (timeMin timeMax : Option Int) (ev : VEvent) : List SyncEvent :=
  if ev.isRecurring then
    expandLoop ev env calendarName calendarId timeMin timeMax
      (ev.iter timeMin) 0 maxOccurrences
  else
    if (match timeMin, ev.endDate with
        | some mn, some ee => decide (ee.toJSDate < mn)
        | _, _ => false) then []
    else if (match timeMax, ev.startDate with
             | some mx, some es => decide (mx < es.toJSDate)
             | _, _ => false) then []
    else [mkSingleEvent ev env calendarName calendarId]

/-- Sequential accumulation over the vevent components. -/
def processVEvents (env : Env) (calendarName calendarId : String)
    (timeMin timeMax : Option Int) : List VEvent → List SyncEvent
  | [] => []
  | ev :: rest =>
    processVEvent env calendarName calendarId timeMin timeMax ev ++
      processVEvents env calendarName calendarId timeMin timeMax rest

/-- parseICSData. The raw text has already passed through the external
ICAL.parse/Component boundary, modelled as an Except: a parse error is
rethrown to the caller (MalformedCalendarData), otherwise every vevent
contributes its occurrences. -/
def parseICSData (parsed : Except String (List VEvent))
    (calendarName calendarId : String) (timeMin timeMax : Option Int)
    (env : Env) : Except String (List SyncEvent) :=
  match parsed with
  | .error e => .error e
  | .ok vevents =>
    .ok (processVEvents env calendarName calendarId timeMin timeMax vevents)

/-! ## Relational store rows and data-access layer -/

/-- A calendar_sources row (db/calendar-sources.js). Booleans model the
0/1 integer columns; password_encrypted is carried opaquely. -/
structure SourceRow where
  id : String
  name : String
  serverUrl : String
  username : String
  passwordEncrypted : String
  sourceType : Option String
  requiresAuth : Bool
  isPublic : Bool
  isActive : Bool
  enabled : Bool
  createdAt : Int
  updatedAt : Int
deriving DecidableEq

/-- A calendars row (db/calendars.js). -/
structure CalendarRow where
  id : String
  sourceId : String
  name : String
  calendarUrl : String
  color : String
  enabled : Bool
  createdAt : Int
  updatedAt : Int
deriving DecidableEq

/-- The calendar object the data-access layer maps a row to. -/
structure Calendar where
  id : String
  sourceId : String
  name : String
  calendarUrl : String
  color : String
  enabled : Bool
  createdAt : Int
  updatedAt : Int
deriving DecidableEq

/-- The source object getSourceById / getAllSources map a row to.
Decryption is the opaque credential boundary; it is modelled as the
identity on the stored ciphertext. -/
structure Source where
  id : String
  name : String
  url : String
  username : String
  password : String
  sourceType : String
  requiresAuth : Bool
  isPublic : Bool
  enabled : Bool
  calendars : List Calendar
deriving DecidableEq

/-- Opaque credential-at-rest boundary (db/crypto.js), out of scope for
the sync core; modelled as the identity. -/
def decryptPassword (s : String) : String := s

def rowToCalendar (c : CalendarRow) : Calendar :=
  { id := c.id, sourceId := c.sourceId, name := c.name
    calendarUrl := c.calendarUrl, color := c.color, enabled := c.enabled
    createdAt := c.createdAt, updatedAt := c.updatedAt }

/-- db/calendars.js getCalendarsBySource. -/
def getCalendarsBySource (cals : List CalendarRow) (sourceId : String) :
    List Calendar :=
  (cals.filter (fun c => c.sourceId == sourceId)).map rowToCalendar

/-- db/calendars.js getEnabledCalendarsBySource (enabled = 1 only; the
mapped object pins enabled to true). -/
def getEnabledCalendarsBySource (cals : List CalendarRow) (sourceId : String) :
    List Calendar :=
  (cals.filter (fun c => c.sourceId == sourceId && c.enabled)).map
    (fun c => { rowToCalendar c with enabled := true })

def rowToSource (s : SourceRow) (calendars : List Calendar) : Source :=
  { id := s.id, name := s.name, url := s.serverUrl
    username := s.username, password := decryptPassword s.passwordEncrypted
    sourceType := jsOrD s.sourceType "caldav"
    requiresAuth := s.requiresAuth, isPublic := s.isPublic
    enabled := s.enabled, calendars := calendars }

/-- db/calendar-sources.js getAllSources: active (non-soft-deleted) rows
only; the enabled flag is not consulted. -/
def getAllSources (sources : List SourceRow) (cals : List CalendarRow) :
    List Source :=
  (sources.filter (fun s => s.isActive)).map
    (fun s => rowToSource s (getCalendarsBySource cals s.id))

/-- db/calendar-sources.js getSourceById: looked up by id with no
is_active filter. -/
def getSourceById (sources : List SourceRow) (cals : List CalendarRow)
    (id : String) : Option Source :=
  (sources.find? (fun s => s.id == id)).map
    (fun s => rowToSource s (getCalendarsBySource cals id))

/-- An events row (db/events.js). -/
structure EventRow where
  id : String
  sourceId : String
  calendarId : String
  title : String
  description : String
  location : String
  startTime : Int
  endTime : Int
  timezone : String
  recurrenceRule : Option String
  isAllDay : Bool
  createdAt : Int
  updatedAt : Int
deriving DecidableEq

/-- The event record syncSource hands to saveEvents. -/
structure DbEvent where
  id : String
  sourceId : String
  calendarId : String
  title : String
  description : String
  location : String
  start : Option Int
  endTime : Option Int
  timezone : Option String
  recurrenceRule : Option String
  allDay : Bool
deriving DecidableEq

/-- The row saveEvents writes for one event whose timestamps converted. -/
def eventRowOfDbEvent (e : DbEvent) (s t now : Int) : EventRow :=
  { id := e.id, sourceId := e.sourceId, calendarId := e.calendarId
    title := e.title, description := e.description, location := e.location
    startTime := s, endTime := t
    timezone := jsOrD e.timezone "UTC"
    recurrenceRule := jsStrOrNull e.recurrenceRule
    isAllDay := e.allDay
    createdAt := now, updatedAt := now }

/-- SQLite INSERT OR REPLACE keyed on the id primary key: any existing
row with the same id (from any source) is deleted, the new row inserted. -/
def replaceEvent (rows : List EventRow) (row : EventRow) : List EventRow :=
  rows.filter (fun r => r.id ≠ row.id) ++ [row]

/-- The transaction body of saveEvents: events whose start or end is not
a numeric timestamp are skipped, the rest insert-or-replace. -/
def saveEventsList (now : Int) : List EventRow → List DbEvent → List EventRow
  | rows, [] => rows
  | rows, e :: rest =>
    match e.start, e.endTime with
    | some s, some t =>
      saveEventsList now (replaceEvent rows (eventRowOfDbEvent e s t now)) rest
    | _, _ => saveEventsList now rows rest

/-- db/events.js saveEvents: runs the transaction and returns the length
of the input list regardless of how many rows were actually written. -/
def saveEvents (rows : List EventRow) (events : List DbEvent) (now : Int) :
    List EventRow × Nat :=
  (saveEventsList now rows events, events.length)

/-- db/events.js deleteEventsBySource. -/
def deleteEventsBySource (rows : List EventRow) (sourceId : String) :
    List EventRow :=
  rows.filter (fun r => r.sourceId ≠ sourceId)

/-- The slice of the event cache belonging to one source. -/
def eventsBySource (rows : List EventRow) (sourceId : String) :
    List EventRow :=
  rows.filter (fun r => r.sourceId = sourceId)

/-! ## Sync metadata store (db/sync-metadata.js) -/

/-- A sync_metadata row. -/
structure SyncMetadataRow where
  sourceId : String
  lastSyncTime : Option Int
  lastSyncStatus : Option String
  lastError : Option String
  retryCount : Nat
  nextRetryTime : Option Int
  syncToken : Option String
  ctag : Option String
deriving DecidableEq

/-- The mapped object getSyncMetadata returns: timestamp columns pass
through a JS truthiness test (a literal 0 collapses to null) before
being wrapped in a Date. -/
structure SyncMeta where
  sourceId : String
  lastSyncTime : Option Int
  lastSyncStatus : Option String
  lastError : Option String
  retryCount : Nat
  nextRetryTime : Option Int
  syncToken : Option String
  ctag : Option String
deriving DecidableEq

def mapMetaRow (m : SyncMetadataRow) : SyncMeta :=
  { sourceId := m.sourceId
    lastSyncTime := jsMsOrNull m.lastSyncTime
    lastSyncStatus := m.lastSyncStatus
    lastError := m.lastError
    retryCount := m.retryCount
    nextRetryTime := jsMsOrNull m.nextRetryTime
    syncToken := m.syncToken
    ctag := m.ctag }

/-- db/sync-metadata.js getSyncMetadata. -/
def getSyncMetadata (metas : List SyncMetadataRow) (sourceId : String) :
    Option SyncMeta :=
  (metas.find? (fun m => m.sourceId == sourceId)).map mapMetaRow

/-- The updates object passed to updateSyncMetadata. The outer Option is
the JS undefined/present distinction (an absent field is not updated);
the inner Option is SQL null. -/
structure MetaUpdates where
  lastSyncTime : Option (Option Int) := none
  lastSyncStatus : Option (Option String) := none
  lastError : Option (Option String) := none
  retryCount : Option Nat := none
  nextRetryTime : Option (Option Int) := none
  syncToken : Option (Option String) := none
  ctag : Option (Option String) := none

def MetaUpdates.isEmpty (u : MetaUpdates) : Bool :=
  u.lastSyncTime.isNone && u.lastSyncStatus.isNone && u.lastError.isNone &&
    u.retryCount.isNone && u.nextRetryTime.isNone && u.syncToken.isNone &&
    u.ctag.isNone

/-- The UPDATE branch: set exactly the fields present in the updates. -/
def applyMetaUpdates (m : SyncMetadataRow) (u : MetaUpdates) : SyncMetadataRow :=
  { m with
    lastSyncTime := u.lastSyncTime.getD m.lastSyncTime
    lastSyncStatus := u.lastSyncStatus.getD m.lastSyncStatus
    lastError := u.lastError.getD m.lastError
    retryCount := u.retryCount.getD m.retryCount
    nextRetryTime := u.nextRetryTime.getD m.nextRetryTime
    syncToken := u.syncToken.getD m.syncToken
    ctag := u.ctag.getD m.ctag }

/-- JS truthiness on an update field holding a nullable timestamp
(`updates.x ? ... : null`). -/
def jsUpdMs (x : Option (Option Int)) : Option Int :=
  match x with
  | some v => jsMsOrNull v
  | none => none

/-- JS `updates.x || null` on an update field holding a nullable string. -/
def jsUpdStr (x : Option (Option String)) : Option String :=
  match x with
  | some v => jsStrOrNull v
  | none => none

/-- The INSERT branch row for a source with no metadata record yet. -/
def insertMetaRow (sourceId : String) (u : MetaUpdates) : SyncMetadataRow :=
  { sourceId := sourceId
    lastSyncTime := jsUpdMs u.lastSyncTime
    lastSyncStatus := jsUpdStr u.lastSyncStatus
    lastError := jsUpdStr u.lastError
    retryCount := u.retryCount.getD 0
    nextRetryTime := jsUpdMs u.nextRetryTime
    syncToken := jsUpdStr u.syncToken
    ctag := jsUpdStr u.ctag }

/-- db/sync-metadata.js updateSyncMetadata: no-op when no field is
present; otherwise insert a fresh row or update the existing one. -/
def updateSyncMetadata (metas : List SyncMetadataRow) (sourceId : String)
    (u : MetaUpdates) : List SyncMetadataRow :=
  if u.isEmpty then metas
  else
    match metas.find? (fun m => m.sourceId == sourceId) with
    | none => metas ++ [insertMetaRow sourceId u]
    | some _ =>
      metas.map (fun m => if m.sourceId == sourceId then applyMetaUpdates m u else m)

/-- Backoff schedule in minutes. -/
def backoffMinutes : List Nat := [1, 5, 15]

/-- db/sync-metadata.js incrementRetryCount: bump the count and schedule
the next retry by the backoff schedule indexed by min(count-1, 2). -/
def incrementRetryCount (metas : List SyncMetadataRow) (sourceId : String)
    (error : String) (now : Int) : List SyncMetadataRow :=
  let retryCount :=
    match getSyncMetadata metas sourceId with
    | some m => m.retryCount
    | none => 0
  let newRetryCount := retryCount + 1
  let delayMinutes :=
    backoffMinutes.getD (min (newRetryCount - 1) (backoffMinutes.length - 1)) 0
  let nextRetryTime := now + (delayMinutes : Int) * 60 * 1000
  updateSyncMetadata metas sourceId
    { retryCount := some newRetryCount
      nextRetryTime := some (some nextRetryTime)
      lastError := some (some error)
      lastSyncStatus := some (some "error") }

/-! ## Fetch layer (sync.service.js fetchEventsFromSource)

Network transports and the external libraries are oracle inputs: the
oracle records what each external call would produce in this cycle. -/

structure HttpResponse where
  status : Nat
  statusText : String
  body : String

/-- A remote CalDAV calendar collection as listed by fetchCalendars. -/
structure RemoteCalendar where
  url : String

/-- A CalDAV calendar object; data may be absent. -/
structure CalendarObject where
  data : Option String

/-- Oracle for all suspension points and external parses in one sync
cycle for one source. An error value models a thrown exception
(network failure, timeout, or MalformedCalendarData from ICAL.parse). -/
structure FetchOracle where
  icsFetch : String → Except String HttpResponse
  davConnect : Except String Unit
  davCalendars : Except String (List RemoteCalendar)
  davObjects : String → Except String (List CalendarObject)
  parse : String → Except String (List VEvent)

/-- The ics-feed branch: one fetch per enabled calendar, sequentially; a
network error, non-2xx status, or parse failure propagates immediately. -/
def fetchIcsList (o : FetchOracle) (env : Env) :
    List Calendar → Except String (List SyncEvent)
  | [] => .ok []
  | cal :: rest =>
    match o.icsFetch cal.calendarUrl with
    | .error e => .error e
    | .ok resp =>
      if resp.status < 200 ∨ 300 ≤ resp.status then
        .error ("HTTP " ++ toString resp.status ++ ": " ++ resp.statusText)
      else
        match parseICSData (o.parse resp.body) cal.name cal.id none none env with
        | .error e => .error e
        | .ok evs =>
          match fetchIcsList o env rest with
          | .error e => .error e
          | .ok more => .ok (evs ++ more)

/-- Objects of one matched CalDAV calendar: objects without data are
skipped, per-object parse failures are caught and skipped. -/
def collectCaldavObjects (o : FetchOracle) (env : Env) (cal : Calendar) :
    List CalendarObject → List SyncEvent
  | [] => []
  | obj :: rest =>
    (match obj.data with
     | none => []
     | some d =>
       match parseICSData (o.parse d) cal.name cal.id none none env with
       | .error _ => []
       | .ok evs => evs) ++ collectCaldavObjects o env cal rest

/-- The CalDAV per-calendar walk: enabled calendars with no matching
remote collection are skipped; a per-calendar object-listing failure is
caught and that calendar contributes nothing. -/
def collectCaldavCalendars (o : FetchOracle) (env : Env)
    (remoteCals : List RemoteCalendar) : List Calendar → List SyncEvent
  | [] => []
  | cal :: rest =>
    (match remoteCals.find? (fun rc => rc.url == cal.calendarUrl) with
     | none => []
     | some rc =>
       match o.davObjects rc.url with
       | .error _ => []
       | .ok objs => collectCaldavObjects o env cal objs) ++
      collectCaldavCalendars o env remoteCals rest

/-- sync.service.js fetchEventsFromSource. -/
def fetchEventsFromSource (cals : List CalendarRow) (o : FetchOracle)
    (env : Env) (source : Source) : Except String (List SyncEvent) :=
  let enabledCalendars := getEnabledCalendarsBySource cals source.id
  if enabledCalendars.isEmpty then .ok []
  else if source.sourceType = "ics" then
    fetchIcsList o env enabledCalendars
  else
    match o.davConnect with
    | .error e => .error e
    | .ok _ =>
      match o.davCalendars with
      | .error e => .error e
      | .ok remoteCals =>
        if remoteCals.isEmpty then .ok []
        else .ok (collectCaldavCalendars o env remoteCals enabledCalendars)

/-! ## Sync orchestrator (sync.service.js syncSource / syncAllSources) -/

/-- Retry configuration MAX_RETRIES. -/
def MAX_RETRIES : Nat := 3

/-- The whole mutable store: the four tables. -/
structure DB where
  sources : List SourceRow
  calendars : List CalendarRow
  events : List EventRow
  syncMetadata : List SyncMetadataRow
deriving DecidableEq

/-- The value syncSource resolves with. -/
structure SyncResult where
  success : Bool
  count : Option Nat
  error : Option String
deriving DecidableEq

/-- The backoff gate condition checked by syncSource: a metadata record
exists, its retryCount reached MAX_RETRIES, and its (truthy)
nextRetryTime is still in the future. -/
def backoffGateActive (meta : Option SyncMeta) (now : Int) : Bool :=
  match meta with
  | none => false
  | some m =>
    MAX_RETRIES ≤ m.retryCount &&
      (match m.nextRetryTime with
       | some t => decide (now < t)
       | none => false)

/-- The transformation syncSource applies to each fetched occurrence
before storage. -/
def toDbEvent (sourceId : String) (e : SyncEvent) : DbEvent :=
  { id := e.id, sourceId := sourceId, calendarId := e.calendarId
    title := e.title, description := e.description, location := e.location
    start := e.start, endTime := e.endTime, timezone := e.timezone
    recurrenceRule := if e.isRecurring then some "RECURRING" else none
    allDay := e.allDay }

/-- The metadata updates recorded on a fully successful sync. -/
def successUpdates (now : Int) : MetaUpdates :=
  { lastSyncTime := some (some now)
    lastSyncStatus := some (some "success")
    lastError := some none
    retryCount := some 0
    nextRetryTime := some none }

/-- sync.service.js syncSource. Every thrown error (including a missing
source) lands in the catch block, which records the failure through
incrementRetryCount; the backoff gate short-circuits before any fetch;
on success the source's cache slice is replaced and metadata reset. -/
def syncSource (db : DB) (o : FetchOracle) (env : Env) (sourceId : String)
    (now : Int) : DB × SyncResult :=
  match getSourceById db.sources db.calendars sourceId with
  | none =>
    ({ db with
        syncMetadata :=
          incrementRetryCount db.syncMetadata sourceId
            ("Source not found: " ++ sourceId) now },
     { success := false, count := none
       error := some ("Source not found: " ++ sourceId) })
  | some source =>
    if backoffGateActive (getSyncMetadata db.syncMetadata sourceId) now then
      (db, { success := false, count := none, error := some "Retry limit exceeded" })
    else
      match fetchEventsFromSource db.calendars o env source with
      | .error e =>
        ({ db with
            syncMetadata := incrementRetryCount db.syncMetadata sourceId e now },
         { success := false, count := none, error := some e })
      | .ok events =>
        let dbEvents := events.map (toDbEvent sourceId)
        let cleared := deleteEventsBySource db.events sourceId
        let saved := saveEvents cleared dbEvents now
        ({ db with
            events := saved.1
            syncMetadata := updateSyncMetadata db.syncMetadata sourceId (successUpdates now) },
         { success := true, count := some dbEvents.length, error := none })

/-- The per-source walk of syncAllSources. Promise.all over sources whose
cache and metadata slices are disjoint is modelled as sequential
threading of the store; each source uses its own oracle. -/
def syncAllSourcesGo (o : String → FetchOracle) (env : Env) (now : Int) :
    DB → List Source → DB × List SyncResult
  | db, [] => (db, [])
  | db, s :: rest =>
    ((syncAllSourcesGo o env now (syncSource db (o s.id) env s.id now).1 rest).1,
     (syncSource db (o s.id) env s.id now).2 ::
       (syncAllSourcesGo o env now (syncSource db (o s.id) env s.id now).1 rest).2)

/-- sync.service.js syncAllSources: every source returned by
getAllSources is synced and its result aggregated. -/
def syncAllSources (db : DB) (o : String → FetchOracle) (env : Env)
    (now : Int) : DB × List SyncResult :=
  syncAllSourcesGo o env now db (getAllSources db.sources db.calendars)

/-! ## Projections used by the specifications -/

/-- An event row minus the cache-layer createdAt/updatedAt bookkeeping. -/
structure EventCore where
  id : String
  sourceId : String
  calendarId : String
  title : String
  description : String
  location : String
  startTime : Int
  endTime : Int
  timezone : String
  recurrenceRule : Option String
  isAllDay : Bool
deriving DecidableEq

def stripTimes (r : EventRow) : EventCore :=
  { id := r.id, sourceId := r.sourceId, calendarId := r.calendarId
    title := r.title, description := r.description, location := r.location
    startTime := r.startTime, endTime := r.endTime, timezone := r.timezone
    recurrenceRule := r.recurrenceRule, isAllDay := r.isAllDay }

/-! ## Concrete fixtures for witnesses and counterexamples -/

def exEnv : Env := { defaultTimezone := none, serverOffsetMinutes := 0 }

def exTime1 : ICalTime :=
  { isDate := false, year := 2024, month := 11, day := 5
    hour := 9, minute := 0, second := 0
    zone := some { tzid := some "UTC", utcAdjustMinutes := 0 } }

def exTime2 : ICalTime := { exTime1 with hour := 10 }

/-- A floating (zoneless) 2024-07-01T09:30:00, a date on which
America/Chicago observes CDT (UTC-5). -/
def floatJul1 : ICalTime :=
  { isDate := false, year := 2024, month := 7, day := 1
    hour := 9, minute := 30, second := 0, zone := none }

/-- An all-day 2024-11-05. -/
def allDayNov5 : ICalTime :=
  { isDate := true, year := 2024, month := 11, day := 5
    hour := 0, minute := 0, second := 0, zone := none }

def noIter : Option Int → Nat → Option ICalTime := fun _ _ => none

def exVEvent1 : VEvent :=
  { uid := "ev1", summary := some "Breakfast", description := none
    location := none, startDate := some exTime1, endDate := some exTime2
    isRecurring := false, iter := noIter
    getOccDetails := fun t => { startDate := some t, endDate := some t } }

/-- A timed event with no start or end at all: its instants do not
convert to numeric timestamps. -/
def exVEventNoStart : VEvent :=
  { uid := "ev2", summary := some "Ghost", description := none
    location := none, startDate := none, endDate := none
    isRecurring := false, iter := noIter
    getOccDetails := fun t => { startDate := some t, endDate := some t } }

/-- A recurring event whose rule never exhausts: the iterator always
yields another daily candidate. -/
def dailyVEvent : VEvent :=
  { uid := "daily", summary := some "Standup", description := none
    location := none, startDate := some exTime1, endDate := some exTime2
    isRecurring := true
    iter := fun _ n => some { exTime1 with day := 5 + (n : Int) }
    getOccDetails := fun t => { startDate := some t, endDate := some t } }

def exSourceRow : SourceRow :=
  { id := "s1", name := "Family", serverUrl := "https://cal.example/feed.ics"
    username := "", passwordEncrypted := "", sourceType := some "ics"
    requiresAuth := false, isPublic := true, isActive := true, enabled := true
    createdAt := 0, updatedAt := 0 }

def exCalRow : CalendarRow :=
  { id := "c1", sourceId := "s1", name := "Main"
    calendarUrl := "https://cal.example/feed.ics", color := "#3788d8"
    enabled := true, createdAt := 0, updatedAt := 0 }

def exDb : DB :=
  { sources := [exSourceRow], calendars := [exCalRow]
    events := [], syncMetadata := [] }

def exSource : Source :=
  rowToSource exSourceRow (getCalendarsBySource [exCalRow] "s1")

/-- Oracle for a healthy ics feed carrying one parseable event. -/
def okOracle : FetchOracle :=
  { icsFetch := fun _ => .ok { status := 200, statusText := "OK", body := "good" }
    davConnect := .ok (), davCalendars := .ok []
    davObjects := fun _ => .ok []
    parse := fun b => if b = "good" then .ok [exVEvent1] else .error "Malformed" }

/-- Oracle whose every network call fails. -/
def failOracle : FetchOracle :=
  { icsFetch := fun _ => .error "network down"
    davConnect := .error "network down", davCalendars := .error "network down"
    davObjects := fun _ => .error "network down"
    parse := fun _ => .error "Malformed" }

/-- Oracle for an ics feed whose body does not parse. -/
def badIcsOracle : FetchOracle :=
  { icsFetch := fun _ => .ok { status := 200, statusText := "OK", body := "bad" }
    davConnect := .ok (), davCalendars := .ok []
    davObjects := fun _ => .ok []
    parse := fun _ => .error "Malformed" }

/-- Oracle for an ics feed whose parse yields one valid event and one
event with no convertible timestamps. -/
def c10Oracle : FetchOracle :=
  { icsFetch := fun _ => .ok { status := 200, statusText := "OK", body := "good" }
    davConnect := .ok (), davCalendars := .ok []
    davObjects := fun _ => .ok []
    parse := fun b =>
      if b = "good" then .ok [exVEvent1, exVEventNoStart] else .error "Malformed" }

/-- The store after a successful first sync of exDb. -/
def exDbSynced : DB := (syncSource exDb okOracle exEnv "s1" 100).1

/-- A CalDAV source with one enabled calendar. -/
def exCaldavSourceRow : SourceRow :=
  { id := "s7", name := "Work", serverUrl := "https://dav.example"
    username := "u", passwordEncrypted := "p", sourceType := some "caldav"
    requiresAuth := true, isPublic := false, isActive := true, enabled := true
    createdAt := 0, updatedAt := 0 }

def exCaldavCalRow : CalendarRow :=
  { id := "c7", sourceId := "s7", name := "Team"
    calendarUrl := "https://dav.example/team", color := "#3788d8"
    enabled := true, createdAt := 0, updatedAt := 0 }

def exCaldavDb : DB :=
  { sources := [exCaldavSourceRow], calendars := [exCaldavCalRow]
    events := [], syncMetadata := [] }

/-- CalDAV oracle: the matched collection holds one parseable object and
one malformed object. -/
def caldavMixedOracle : FetchOracle :=
  { icsFetch := fun _ => .error "unused"
    davConnect := .ok ()
    davCalendars := .ok [{ url := "https://dav.example/team" }]
    davObjects := fun _ => .ok [{ data := some "good" }, { data := some "bad" }]
    parse := fun b => if b = "good" then .ok [exVEvent1] else .error "Malformed" }

/-- A source that is soft-active but administratively disabled. -/
def exDisabledSourceRow : SourceRow := { exSourceRow with enabled := false }

def exDbDisabled : DB :=
  { sources := [exDisabledSourceRow], calendars := [exCalRow]
    events := [], syncMetadata := [] }

/-- Metadata record of a source that has exhausted its retries with a
retry window still open at clock 0. -/
def exGatedMetaRow : SyncMetadataRow :=
  { sourceId := "s1", lastSyncTime := some 50, lastSyncStatus := some "error"
    lastError := some "network down", retryCount := 3
    nextRetryTime := some 1000000, syncToken := none, ctag := none }

def exGatedDb : DB :=
  { sources := [exSourceRow], calendars := [exCalRow]
    events := [{ id := "ev1", sourceId := "s1", calendarId := "c1"
                 title := "Breakfast", description := "", location := ""
                 startTime := 10, endTime := 20, timezone := "UTC"
                 recurrenceRule := none, isAllDay := false
                 createdAt := 1, updatedAt := 1 }]
    syncMetadata := [exGatedMetaRow] }

/-- Metadata after exactly two consecutive failures. -/
def exTwoFailMetaRow : SyncMetadataRow :=
  { sourceId := "s1", lastSyncTime := none, lastSyncStatus := some "error"
    lastError := some "network down", retryCount := 2
    nextRetryTime := some 400000, syncToken := none, ctag := none }

def exTwoFailDb : DB :=
  { sources := [exSourceRow], calendars := [exCalRow]
    events := [], syncMetadata := [exTwoFailMetaRow] }

/-! ## Helper lemmas: metadata store -/

theorem applyMetaUpdates_sourceId (m : SyncMetadataRow) (u : MetaUpdates) :
    (applyMetaUpdates m u).sourceId = m.sourceId := rfl

theorem insertMetaRow_sourceId (sourceId : String) (u : MetaUpdates) :
    (insertMetaRow sourceId u).sourceId = sourceId := rfl

theorem findConsIf {α : Type} (p : α → Bool) (a : α) (l : List α) :
    List.find? p (a :: l) = if p a then some a else List.find? p l := by
  cases h : p a <;> simp [List.find?, h]

theorem find?_map_update_self (u : MetaUpdates) (sourceId : String) :
    ∀ (metas : List SyncMetadataRow) (r : SyncMetadataRow),
      metas.find? (fun m => m.sourceId == sourceId) = some r →
      (metas.map
          (fun m => if m.sourceId == sourceId then applyMetaUpdates m u else m)).find?
          (fun m => m.sourceId == sourceId) = some (applyMetaUpdates r u)
  | [], r, h => by simp at h
  | a :: l, r, h => by
    rw [findConsIf] at h
    by_cases ha : (a.sourceId == sourceId) = true
    · simp only [ha, if_true] at h
      cases h
      simp only [List.map_cons, ha, if_true, findConsIf, applyMetaUpdates_sourceId]
    · have ha' : (a.sourceId == sourceId) = false := by simpa using ha
      simp only [ha', Bool.false_eq_true, if_false] at h
      simp only [List.map_cons, ha', Bool.false_eq_true, if_false, findConsIf]
      exact find?_map_update_self u sourceId l r h

theorem find?_map_update_other (u : MetaUpdates) (sourceId other : String)
    (hno : sourceId ≠ other) :
    ∀ metas : List SyncMetadataRow,
      (metas.map
          (fun m => if m.sourceId == sourceId then applyMetaUpdates m u else m)).find?
          (fun m => m.sourceId == other) =
        metas.find? (fun m => m.sourceId == other)
  | [] => by simp
  | a :: l => by
    by_cases ha : (a.sourceId == sourceId) = true
    · have haeq : a.sourceId = sourceId := by simpa using ha
      have hother : (a.sourceId == other) = false := by
        rw [beq_eq_false_iff_ne, haeq]; exact hno
      simp only [List.map_cons, ha, if_true, findConsIf, applyMetaUpdates_sourceId,
        hother, Bool.false_eq_true, if_false]
      exact find?_map_update_other u sourceId other hno l
    · have ha' : (a.sourceId == sourceId) = false := by simpa using ha
      simp only [List.map_cons, ha', Bool.false_eq_true, if_false, findConsIf]
      cases hb : (a.sourceId == other) with
      | true => simp [hb]
      | false =>
        simp only [hb, Bool.false_eq_true, if_false]
        exact find?_map_update_other u sourceId other hno l

theorem find?_update_self (metas : List SyncMetadataRow) (sourceId : String)
    (u : MetaUpdates) (hne : u.isEmpty = false) :
    (updateSyncMetadata metas sourceId u).find? (fun m => m.sourceId == sourceId) =
      some (match metas.find? (fun m => m.sourceId == sourceId) with
            | some r => applyMetaUpdates r u
            | none => insertMetaRow sourceId u) := by
  unfold updateSyncMetadata
  simp only [hne, Bool.false_eq_true, if_false]
  cases hf : metas.find? (fun m => m.sourceId == sourceId) with
  | none =>
    rw [List.find?_append, hf]
    simp [findConsIf, insertMetaRow_sourceId]
  | some r =>
    exact find?_map_update_self u sourceId metas r hf

theorem find?_update_other (metas : List SyncMetadataRow)
    (sourceId other : String) (u : MetaUpdates) (h : other ≠ sourceId) :
    (updateSyncMetadata metas sourceId u).find? (fun m => m.sourceId == other) =
      metas.find? (fun m => m.sourceId == other) := by
  unfold updateSyncMetadata
  by_cases he : u.isEmpty = true
  · simp [he]
  · have he' : u.isEmpty = false := by simpa using he
    simp only [he', Bool.false_eq_true, if_false]
    cases hf : metas.find? (fun m => m.sourceId == sourceId) with
    | none =>
      rw [List.find?_append]
      have hsd : (sourceId == other) = false := by
        rw [beq_eq_false_iff_ne]; exact Ne.symm h
      have hrow : List.find? (fun m => m.sourceId == other)
          [insertMetaRow sourceId u] = none := by
        simp [findConsIf, insertMetaRow_sourceId, hsd]
      rw [hrow, Option.or_none]
    | some r =>
      exact find?_map_update_other u sourceId other (Ne.symm h) metas

theorem getSyncMetadata_update_other (metas : List SyncMetadataRow)
    (sourceId other : String) (u : MetaUpdates) (h : other ≠ sourceId) :
    getSyncMetadata (updateSyncMetadata metas sourceId u) other =
      getSyncMetadata metas other := by
  unfold getSyncMetadata
  rw [find?_update_other metas sourceId other u h]

theorem getSyncMetadata_increment_other (metas : List SyncMetadataRow)
    (sourceId other : String) (err : String) (now : Int) (h : other ≠ sourceId) :
    getSyncMetadata (incrementRetryCount metas sourceId err now) other =
      getSyncMetadata metas other := by
  unfold incrementRetryCount
  exact getSyncMetadata_update_other _ _ _ _ h

/-! ## Helper lemmas: event cache -/

theorem eventRowOfDbEvent_sourceId (e : DbEvent) (s t now : Int) :
    (eventRowOfDbEvent e s t now).sourceId = e.sourceId := rfl

theorem eventRowOfDbEvent_id (e : DbEvent) (s t now : Int) :
    (eventRowOfDbEvent e s t now).id = e.id := rfl

theorem stripTimes_id (r : EventRow) : (stripTimes r).id = r.id := rfl

theorem eventsBySource_replaceEvent (rows : List EventRow) (row : EventRow)
    (sid : String) (hrow : row.sourceId = sid) :
    eventsBySource (replaceEvent rows row) sid =
      replaceEvent (eventsBySource rows sid) row := by
  unfold eventsBySource replaceEvent
  rw [List.filter_append, List.filter_filter, List.filter_filter]
  congr 1
  · apply List.filter_congr
    intro a _
    by_cases h1 : a.sourceId = sid <;> by_cases h2 : a.id = row.id <;> simp [h1, h2]
  · simp [hrow]

theorem eventsBySource_saveEventsList (sid : String) :
    ∀ (events : List DbEvent) (rows : List EventRow) (now : Int),
      (∀ e ∈ events, e.sourceId = sid) →
      eventsBySource (saveEventsList now rows events) sid =
        saveEventsList now (eventsBySource rows sid) events
  | [], rows, now, _ => rfl
  | e :: rest, rows, now, h => by
    have hsid : e.sourceId = sid := h e (List.mem_cons_self ..)
    have hrest : ∀ x ∈ rest, x.sourceId = sid :=
      fun x hx => h x (List.mem_cons_of_mem _ hx)
    cases hs : e.start with
    | none =>
      simp only [saveEventsList, hs]
      exact eventsBySource_saveEventsList sid rest rows now hrest
    | some s =>
      cases ht : e.endTime with
      | none =>
        simp only [saveEventsList, hs, ht]
        exact eventsBySource_saveEventsList sid rest rows now hrest
      | some t =>
        simp only [saveEventsList, hs, ht]
        rw [eventsBySource_saveEventsList sid rest _ now hrest,
          eventsBySource_replaceEvent rows _ sid
            (by rw [eventRowOfDbEvent_sourceId, hsid])]

theorem eventsBySource_delete (rows : List EventRow) (sid : String) :
    eventsBySource (deleteEventsBySource rows sid) sid = [] := by
  unfold eventsBySource deleteEventsBySource
  rw [List.filter_filter]
  have : ∀ a ∈ rows, ¬((decide (a.sourceId = sid) && decide (a.sourceId ≠ sid)) = true) := by
    intro a _
    by_cases h : a.sourceId = sid <;> simp [h]
  induction rows with
  | nil => rfl
  | cons a l ih =>
    have ha := this a (List.mem_cons_self ..)
    rw [List.filter_cons]
    simp only [eq_false_of_ne_true ha, Bool.false_eq_true, if_false]
    exact ih (fun x hx => this x (List.mem_cons_of_mem _ hx))

theorem stripTimes_filter_id (x : String) :
    ∀ l : List EventRow,
      (l.filter (fun r => r.id ≠ x)).map stripTimes =
        (l.map stripTimes).filter (fun c => c.id ≠ x)
  | [] => rfl
  | a :: l => by
    rw [List.map_cons, List.filter_cons, List.filter_cons]
    by_cases h : a.id = x
    · rw [if_neg (by simp [h]), if_neg (by simp [stripTimes_id, h])]
      exact stripTimes_filter_id x l
    · rw [if_pos (by simp [h]), if_pos (by simp [stripTimes_id, h]), List.map_cons]
      rw [stripTimes_filter_id x l]

theorem strip_saveEventsList :
    ∀ (events : List DbEvent) (b₁ b₂ : List EventRow) (n₁ n₂ : Int),
      b₁.map stripTimes = b₂.map stripTimes →
      (saveEventsList n₁ b₁ events).map stripTimes =
        (saveEventsList n₂ b₂ events).map stripTimes
  | [], _, _, _, _, h => h
  | e :: rest, b₁, b₂, n₁, n₂, h => by
    cases hs : e.start with
    | none =>
      simp only [saveEventsList, hs]
      exact strip_saveEventsList rest b₁ b₂ n₁ n₂ h
    | some s =>
      cases ht : e.endTime with
      | none =>
        simp only [saveEventsList, hs, ht]
        exact strip_saveEventsList rest b₁ b₂ n₁ n₂ h
      | some t =>
        simp only [saveEventsList, hs, ht]
        apply strip_saveEventsList rest _ _ n₁ n₂
        unfold replaceEvent
        rw [List.map_append, List.map_append,
          stripTimes_filter_id, stripTimes_filter_id, h]
        rfl

/-! ## Helper lemmas: recurrence expansion -/

theorem expandLoop_length_le (ev : VEvent) (env : Env) (cn cid : String)
    (tmin tmax : Option Int) (stream : Nat → Option ICalTime) :
    ∀ (fuel i : Nat),
      (expandLoop ev env cn cid tmin tmax stream i fuel).length ≤ fuel
  | 0, _ => by simp [expandLoop]
  | fuel + 1, i => by
    simp only [expandLoop]
    cases h : stream i with
    | none => simp
    | some next =>
      cases h1 : (match tmax with
                  | some mx => decide (mx < next.toJSDate)
                  | none => false) with
      | true => simp [h1]
      | false =>
        simp only [h1, Bool.false_eq_true, if_false]
        cases h2 : (match tmin with
                    | some mn => decide (next.toJSDate < mn)
                    | none => false) with
        | true =>
          simp only [h2, if_true]
          exact le_trans
            (expandLoop_length_le ev env cn cid tmin tmax stream fuel (i + 1))
            (Nat.le_succ fuel)
        | false =>
          simp only [h2, Bool.false_eq_true, if_false, List.length_cons]
          exact Nat.succ_le_succ
            (expandLoop_length_le ev env cn cid tmin tmax stream fuel (i + 1))

theorem expandLoop_length_total (ev : VEvent) (env : Env) (cn cid : String)
    (stream : Nat → Option ICalTime) (h : ∀ n, (stream n).isSome) :
    ∀ (fuel i : Nat),
      (expandLoop ev env cn cid none none stream i fuel).length = fuel
  | 0, _ => by simp [expandLoop]
  | fuel + 1, i => by
    obtain ⟨next, hn⟩ := Option.isSome_iff_exists.mp (h i)
    simp only [expandLoop, hn, Bool.false_eq_true, if_false, List.length_cons]
    rw [expandLoop_length_total ev env cn cid stream h fuel (i + 1)]

theorem processVEvent_length_le (env : Env) (cn cid : String)
    (tmin tmax : Option Int) (ev : VEvent) :
    (processVEvent env cn cid tmin tmax ev).length ≤ maxOccurrences := by
  unfold processVEvent
  split
  · exact expandLoop_length_le ev env cn cid tmin tmax (ev.iter tmin) maxOccurrences 0
  · split
    · simp [maxOccurrences]
    · split
      · simp [maxOccurrences]
      · simp [maxOccurrences]

theorem processVEvent_recurring_total (env : Env) (cn cid : String) (ev : VEvent)
    (hrec : ev.isRecurring = true) (hiter : ∀ n, (ev.iter none n).isSome) :
    (processVEvent env cn cid none none ev).length = maxOccurrences := by
  unfold processVEvent
  rw [if_pos hrec]
  exact expandLoop_length_total ev env cn cid (ev.iter none) hiter maxOccurrences 0

/-! ## Helper lemmas: orchestrator frame and congruence -/

theorem syncSource_frame (db : DB) (o : FetchOracle) (env : Env)
    (sourceId : String) (now : Int) :
    (syncSource db o env sourceId now).1.sources = db.sources ∧
    (syncSource db o env sourceId now).1.calendars = db.calendars ∧
    ∀ other, other ≠ sourceId →
      getSyncMetadata (syncSource db o env sourceId now).1.syncMetadata other =
        getSyncMetadata db.syncMetadata other := by
  unfold syncSource
  cases hs : getSourceById db.sources db.calendars sourceId with
  | none =>
    dsimp only
    refine ⟨rfl, rfl, fun other hne => ?_⟩
    exact getSyncMetadata_increment_other db.syncMetadata sourceId other
      ("Source not found: " ++ sourceId) now hne
  | some source =>
    dsimp only
    by_cases hg : backoffGateActive (getSyncMetadata db.syncMetadata sourceId) now = true
    · rw [if_pos hg]
      exact ⟨rfl, rfl, fun _ _ => rfl⟩
    · rw [if_neg hg]
      cases hf : fetchEventsFromSource db.calendars o env source with
      | error e =>
        dsimp only
        refine ⟨rfl, rfl, fun other hne => ?_⟩
        exact getSyncMetadata_increment_other db.syncMetadata sourceId other e now hne
      | ok events =>
        dsimp only
        refine ⟨rfl, rfl, fun other hne => ?_⟩
        exact getSyncMetadata_update_other db.syncMetadata sourceId other
          (successUpdates now) hne

theorem syncSource_congr (dbA dbB : DB) (o : FetchOracle) (env : Env)
    (sourceId : String) (now : Int)
    (hs : dbA.sources = dbB.sources) (hc : dbA.calendars = dbB.calendars)
    (hm : getSyncMetadata dbA.syncMetadata sourceId =
      getSyncMetadata dbB.syncMetadata sourceId) :
    (syncSource dbA o env sourceId now).2 = (syncSource dbB o env sourceId now).2 := by
  unfold syncSource
  rw [hs, hc, hm]
  cases hsb : getSourceById dbB.sources dbB.calendars sourceId with
  | none => rfl
  | some source =>
    dsimp only
    by_cases hg : backoffGateActive (getSyncMetadata dbB.syncMetadata sourceId) now = true
    · rw [if_pos hg, if_pos hg]
    · rw [if_neg hg, if_neg hg]
      cases hf : fetchEventsFromSource dbB.calendars o env source <;> rfl

theorem syncAllSourcesGo_map (o : String → FetchOracle) (env : Env) (now : Int) :
    ∀ (srcs : List Source) (dbA dbB : DB),
      dbA.sources = dbB.sources → dbA.calendars = dbB.calendars →
      (∀ s ∈ srcs, getSyncMetadata dbA.syncMetadata s.id =
        getSyncMetadata dbB.syncMetadata s.id) →
      srcs.Pairwise (fun a b => a.id ≠ b.id) →
      (syncAllSourcesGo o env now dbA srcs).2 =
        srcs.map (fun s => (syncSource dbB (o s.id) env s.id now).2)
  | [], _, _, _, _, _, _ => rfl
  | s :: rest, dbA, dbB, hs, hc, hm, hp => by
    obtain ⟨hhead, htail⟩ := List.pairwise_cons.mp hp
    simp only [syncAllSourcesGo, List.map_cons]
    rw [syncSource_congr dbA dbB (o s.id) env s.id now hs hc
        (hm s (List.mem_cons_self ..)),
      syncAllSourcesGo_map o env now rest (syncSource dbA (o s.id) env s.id now).1 dbB
        (by rw [(syncSource_frame dbA (o s.id) env s.id now).1, hs])
        (by rw [(syncSource_frame dbA (o s.id) env s.id now).2.1, hc])
        (fun x hx => by
          rw [(syncSource_frame dbA (o s.id) env s.id now).2.2 x.id
            (fun he => hhead x hx he.symm)]
          exact hm x (List.mem_cons_of_mem _ hx))
        htail]

/-- The success path of syncSource in closed form. -/
theorem syncSource_success_spec (db : DB) (o : FetchOracle) (env : Env)
    (sourceId : String) (now : Int)
    (h : (syncSource db o env sourceId now).2.success = true) :
    ∃ source events,
      getSourceById db.sources db.calendars sourceId = some source ∧
      backoffGateActive (getSyncMetadata db.syncMetadata sourceId) now = false ∧
      fetchEventsFromSource db.calendars o env source = .ok events ∧
      syncSource db o env sourceId now =
        ({ db with
            events := saveEventsList now (deleteEventsBySource db.events sourceId)
              (events.map (toDbEvent sourceId))
            syncMetadata :=
              updateSyncMetadata db.syncMetadata sourceId (successUpdates now) },
         { success := true
           count := some (events.map (toDbEvent sourceId)).length
           error := none }) := by
  unfold syncSource at h ⊢
  cases hs : getSourceById db.sources db.calendars sourceId with
  | none => rw [hs] at h; simp at h
  | some source =>
    rw [hs] at h
    dsimp only at h ⊢
    by_cases hg : backoffGateActive (getSyncMetadata db.syncMetadata sourceId) now = true
    · rw [if_pos hg] at h; simp at h
    · have hg' : backoffGateActive (getSyncMetadata db.syncMetadata sourceId) now = false := by
        simpa using hg
      rw [if_neg hg] at h ⊢
      cases hf : fetchEventsFromSource db.calendars o env source with
      | error e => rw [hf] at h; simp at h
      | ok events =>
        rw [hf] at h
        exact ⟨source, events, rfl, hg', hf, rfl⟩

/-- The backoff-gate branch of syncSource in closed form. -/
theorem syncSource_gate_eq (db : DB) (o : FetchOracle) (env : Env)
    (sourceId : String) (now : Int) (src : Source)
    (hsrc : getSourceById db.sources db.calendars sourceId = some src)
    (hg : backoffGateActive (getSyncMetadata db.syncMetadata sourceId) now = true) :
    syncSource db o env sourceId now =
      (db, { success := false, count := none, error := some "Retry limit exceeded" }) := by
  unfold syncSource
  rw [hsrc]
  dsimp only
  rw [if_pos hg]

/-- The fetch-success branch of syncSource in closed form. -/
theorem syncSource_ok_eq (db : DB) (o : FetchOracle) (env : Env)
    (sourceId : String) (now : Int) (src : Source) (events : List SyncEvent)
    (hsrc : getSourceById db.sources db.calendars sourceId = some src)
    (hg : backoffGateActive (getSyncMetadata db.syncMetadata sourceId) now = false)
    (hf : fetchEventsFromSource db.calendars o env src = .ok events) :
    syncSource db o env sourceId now =
      ({ db with
          events := saveEventsList now (deleteEventsBySource db.events sourceId)
            (events.map (toDbEvent sourceId))
          syncMetadata :=
            updateSyncMetadata db.syncMetadata sourceId (successUpdates now) },
       { success := true
         count := some (events.map (toDbEvent sourceId)).length
         error := none }) := by
  unfold syncSource
  rw [hsrc]
  dsimp only
  rw [if_neg (by simp [hg]), hf]
  rfl

/-- After recording a success, the backoff gate is open at every clock. -/
theorem gate_inactive_after_success (metas : List SyncMetadataRow)
    (sourceId : String) (now now₂ : Int) :
    backoffGateActive
      (getSyncMetadata (updateSyncMetadata metas sourceId (successUpdates now))
        sourceId) now₂ = false := by
  unfold getSyncMetadata
  rw [find?_update_self metas sourceId (successUpdates now) rfl]
  cases metas.find? (fun m => m.sourceId == sourceId) <;>
    simp [backoffGateActive, mapMetaRow, applyMetaUpdates, insertMetaRow,
      successUpdates, MAX_RETRIES]

/-- The row incrementRetryCount leaves for the source: count bumped by
one, next retry scheduled by the backoff table. -/
theorem incrementRetryCount_find (metas : List SyncMetadataRow)
    (sourceId err : String) (now : Int) (n : Nat)
    (hn : (match getSyncMetadata metas sourceId with
           | some m => m.retryCount
           | none => 0) = n)
    (hnow : 0 ≤ now) :
    ∃ row,
      (incrementRetryCount metas sourceId err now).find?
        (fun m => m.sourceId == sourceId) = some row ∧
      row.retryCount = n + 1 ∧
      row.nextRetryTime =
        some (now + (backoffMinutes.getD (min n 2) 0 : Int) * 60 * 1000) := by
  have hd : 1 ≤ backoffMinutes.getD (min n 2) 0 := by
    have h3 : min n 2 = 0 ∨ min n 2 = 1 ∨ min n 2 = 2 := by omega
    rcases h3 with h3 | h3 | h3 <;> simp [h3, backoffMinutes]
  have hv : now + (backoffMinutes.getD (min n 2) 0 : Int) * 60 * 1000 ≠ 0 := by
    have : (1 : Int) ≤ (backoffMinutes.getD (min n 2) 0 : Int) := by exact_mod_cast hd
    nlinarith
  unfold incrementRetryCount
  rw [hn]
  have hidx : n + 1 - 1 = n := rfl
  have hlen : backoffMinutes.length - 1 = 2 := rfl
  simp only [hidx, hlen]
  rw [find?_update_self metas sourceId
      { retryCount := some (n + 1)
        nextRetryTime :=
          some (some (now + (backoffMinutes.getD (min n 2) 0 : Int) * 60 * 1000))
        lastError := some (some err)
        lastSyncStatus := some (some "error") } rfl]
  cases metas.find? (fun m => m.sourceId == sourceId) with
  | none =>
    refine ⟨_, rfl, rfl, ?_⟩
    simp only [insertMetaRow, jsUpdMs, jsMsOrNull]
    rw [if_neg hv]
  | some r =>
    exact ⟨_, rfl, rfl, rfl⟩

theorem toDbEvent_mem_sourceId (sourceId : String) (events : List SyncEvent) :
    ∀ e ∈ events.map (toDbEvent sourceId), e.sourceId = sourceId := by
  intro e he
  obtain ⟨x, _, rfl⟩ := List.mem_map.mp he
  rfl

/-- After a delete-then-save replace, the source's cache slice is exactly
the freshly saved rows. -/
theorem eventsBySource_after_save (base : List EventRow) (rows : List DbEvent)
    (sourceId : String) (now : Int) (hr : ∀ e ∈ rows, e.sourceId = sourceId) :
    eventsBySource (saveEventsList now (deleteEventsBySource base sourceId) rows)
        sourceId = saveEventsList now [] rows := by
  rw [eventsBySource_saveEventsList sourceId rows _ now hr, eventsBySource_delete]

/-! ## Claim theorems -/

/-- C1: if syncSource fails at any fetch step, the Event Cache is not
touched and the call returns success = false: a fetch error always
produces a failure result, and every failure result leaves the events
table (hence every source's cached occurrences) exactly as before the
call — in particular the snapshot of a previously successful sync. -/
theorem syncSource_fetch_failure_preserves_cache (db : DB) (o : FetchOracle)
    (env : Env) (sourceId : String) (now : Int) :
    (∀ (src : Source) (e : String),
      getSourceById db.sources db.calendars sourceId = some src →
      fetchEventsFromSource db.calendars o env src = .error e →
      (syncSource db o env sourceId now).2.success = false) ∧
    ((syncSource db o env sourceId now).2.success = false →
      (syncSource db o env sourceId now).1.events = db.events) := by
  constructor
  · intro src e hsrc hfe
    unfold syncSource
    rw [hsrc]
    dsimp only
    by_cases hg : backoffGateActive (getSyncMetadata db.syncMetadata sourceId) now = true
    · rw [if_pos hg]
    · rw [if_neg hg, hfe]
  · intro h
    unfold syncSource at h ⊢
    cases hs : getSourceById db.sources db.calendars sourceId with
    | none => rfl
    | some source =>
      rw [hs] at h
      dsimp only at h ⊢
      by_cases hg : backoffGateActive (getSyncMetadata db.syncMetadata sourceId) now = true
      · rw [if_pos hg]
      · rw [if_neg hg] at h ⊢
        cases hf : fetchEventsFromSource db.calendars o env source with
        | error e => rfl
        | ok events => rw [hf] at h; simp at h

/-- Witness for C1: after a successful first sync of exDb, a second sync
whose every fetch fails returns success = false and leaves the cached
occurrences byte-for-byte unchanged. -/
theorem syncSource_fetch_failure_preserves_cache_witness :
    (syncSource exDbSynced failOracle exEnv "s1" 200).2.success = false ∧
    (syncSource exDbSynced failOracle exEnv "s1" 200).1.events = exDbSynced.events := by
  have h := syncSource_fetch_failure_preserves_cache exDbSynced failOracle exEnv "s1" 200
  have h1 := h.1 exSource "network down" (by decide) rfl
  exact ⟨h1, h.2 h1⟩

/-- C9: when the backoff gate is active (retryCount at MAX_RETRIES and
nextRetryTime in the future), syncSource returns the store completely
unchanged — events, metadata, everything — with a failure result. -/
theorem backoff_gate_mutates_nothing (db : DB) (o : FetchOracle) (env : Env)
    (sourceId : String) (now : Int) (src : Source)
    (hsrc : getSourceById db.sources db.calendars sourceId = some src)
    (hg : backoffGateActive (getSyncMetadata db.syncMetadata sourceId) now = true) :
    syncSource db o env sourceId now =
      (db, { success := false, count := none, error := some "Retry limit exceeded" }) :=
  syncSource_gate_eq db o env sourceId now src hsrc hg

/-- Witness for C9 at a concrete gated store. -/
theorem backoff_gate_mutates_nothing_witness :
    syncSource exGatedDb failOracle exEnv "s1" 0 =
      (exGatedDb, { success := false, count := none, error := some "Retry limit exceeded" }) :=
  backoff_gate_mutates_nothing exGatedDb failOracle exEnv "s1" 0
    (rowToSource exSourceRow (getCalendarsBySource [exCalRow] "s1"))
    (by decide) (by decide)

/-- C2: when the source's n-th consecutive failure happens (the stored
retryCount is n-1, here written n with conclusion n+1), the metadata row
is left with retryCount bumped to n+1 and nextRetryTime equal to the
failure clock plus the backoff delay [1, 5, 15] minutes indexed by
min(n, 2); and whenever the gate is active, syncSource returns the prior
failure without consulting the fetch oracle at all and changes nothing. -/
theorem backoff_progression_and_gate (db : DB) (o : FetchOracle) (env : Env)
    (sourceId : String) (now : Int) (src : Source) (n : Nat)
    (hsrc : getSourceById db.sources db.calendars sourceId = some src)
    (hgate : backoffGateActive (getSyncMetadata db.syncMetadata sourceId) now = false)
    (hn : (match getSyncMetadata db.syncMetadata sourceId with
           | some m => m.retryCount
           | none => 0) = n)
    (hnow : 0 ≤ now) :
    (∀ e : String, fetchEventsFromSource db.calendars o env src = .error e →
      ∃ row,
        ((syncSource db o env sourceId now).1.syncMetadata).find?
          (fun m => m.sourceId == sourceId) = some row ∧
        row.retryCount = n + 1 ∧
        row.nextRetryTime =
          some (now + (backoffMinutes.getD (min n 2) 0 : Int) * 60 * 1000)) ∧
    (∀ (db' : DB) (now' : Int) (src' : Source) (o₁ o₂ : FetchOracle),
      getSourceById db'.sources db'.calendars sourceId = some src' →
      backoffGateActive (getSyncMetadata db'.syncMetadata sourceId) now' = true →
      syncSource db' o₁ env sourceId now' =
        (db', { success := false, count := none, error := some "Retry limit exceeded" }) ∧
      syncSource db' o₁ env sourceId now' = syncSource db' o₂ env sourceId now') := by
  constructor
  · intro e hfe
    have : (syncSource db o env sourceId now).1.syncMetadata =
        incrementRetryCount db.syncMetadata sourceId e now := by
      unfold syncSource
      rw [hsrc]
      dsimp only
      rw [if_neg (by simp [hgate]), hfe]
    rw [this]
    exact incrementRetryCount_find db.syncMetadata sourceId e now n hn hnow
  · intro db' now' src' o₁ o₂ hsrc' hg'
    constructor
    · exact syncSource_gate_eq db' o₁ env sourceId now' src' hsrc' hg'
    · rw [syncSource_gate_eq db' o₁ env sourceId now' src' hsrc' hg',
        syncSource_gate_eq db' o₂ env sourceId now' src' hsrc' hg']

/-- Witness for C2: a third consecutive failure at clock 1000 moves the
retry count from 2 to 3 with a 15-minute backoff, and a gated store is
returned untouched with a result independent of the oracle. -/
theorem backoff_progression_and_gate_witness :
    (∃ row,
      ((syncSource exTwoFailDb failOracle exEnv "s1" 1000).1.syncMetadata).find?
        (fun m => m.sourceId == "s1") = some row ∧
      row.retryCount = 3 ∧
      row.nextRetryTime =
        some (1000 + (backoffMinutes.getD (min 2 2) 0 : Int) * 60 * 1000)) ∧
    (syncSource exGatedDb failOracle exEnv "s1" 0 =
      (exGatedDb, { success := false, count := none, error := some "Retry limit exceeded" }) ∧
     syncSource exGatedDb failOracle exEnv "s1" 0 =
       syncSource exGatedDb okOracle exEnv "s1" 0) := by
  have h := backoff_progression_and_gate exTwoFailDb failOracle exEnv "s1" 1000
    exSource 2 (by decide) (by decide) (by decide) (by decide)
  exact ⟨h.1 "network down" rfl,
    h.2 exGatedDb 0 (rowToSource exSourceRow (getCalendarsBySource [exCalRow] "s1"))
      failOracle okOracle (by decide) (by decide)⟩

/-- C3 (code behavior at the failing input): for every floating timed
value with a truthy detected timezone, icalTimeToDate adds a hard-coded
360-minute offset to the literal clock reading, whatever the configured
default zone and whatever the server offset; in particular a floating
2024-07-01 09:30 under America/Chicago (CDT, UTC-5 on that date)
becomes 15:30 UTC, not the wall-clock-correct 14:30 UTC. -/
theorem icalTimeToDate_floating_hardcoded_offset (env : Env) (t : ICalTime)
    (dtz : String) (hd : t.isDate = false) (hz : t.zone = none) (hne : dtz ≠ "") :
    icalTimeToDate (some t) (some dtz) env =
      some (dateUTC t.year (t.month - 1) t.day t.hour t.minute t.second +
        360 * 60000) ∧
    (∀ env' : Env,
      icalTimeToDate (some floatJul1) (some "America/Chicago") env' =
        some (dateUTC 2024 6 1 15 30 0)) ∧
    dateUTC 2024 6 1 15 30 0 ≠ dateUTC 2024 6 1 14 30 0 := by
  have hfloat : ∀ (env' : Env) (t' : ICalTime) (dtz' : String),
      t'.isDate = false → t'.zone = none → dtz' ≠ "" →
      icalTimeToDate (some t') (some dtz') env' =
        some (dateUTC t'.year (t'.month - 1) t'.day t'.hour t'.minute t'.second +
          360 * 60000) := by
    intro env' t' dtz' hd' hz' hne'
    have hdt : (dtz' != "") = true := by simpa using hne'
    unfold icalTimeToDate
    simp only [hz', hd', hdt, Bool.false_eq_true, if_false, Bool.and_self, if_true]
    congr 1
    ring
  refine ⟨hfloat env t dtz hd hz hne, fun env' => ?_, by decide⟩
  rw [hfloat env' floatJul1 "America/Chicago" rfl rfl (by decide)]
  decide

/-- Witness for C3's code-behavior theorem at the concrete failing
input: the result is pinned to literal-plus-six-hours. -/
theorem icalTimeToDate_floating_hardcoded_offset_witness :
    icalTimeToDate (some floatJul1) (some "America/Chicago") exEnv =
      some (dateUTC 2024 6 1 15 30 0) :=
  ((icalTimeToDate_floating_hardcoded_offset exEnv floatJul1 "America/Chicago"
    rfl rfl (by decide)).2.1) exEnv

/-- C4: a single event contributes at most 500 occurrences whatever the
window, and a recurring event whose rule never exhausts, materialized
with no window, contributes exactly 500. -/
theorem recurrence_cap (env : Env) (cname cid : String)
    (tmin tmax : Option Int) (ev : VEvent) :
    (processVEvent env cname cid tmin tmax ev).length ≤ maxOccurrences ∧
    (ev.isRecurring = true → (∀ n, (ev.iter none n).isSome) →
      parseICSData (Except.ok [ev]) cname cid none none env =
        .ok (processVEvent env cname cid none none ev) ∧
      (processVEvent env cname cid none none ev).length = maxOccurrences) := by
  refine ⟨processVEvent_length_le env cname cid tmin tmax ev,
    fun hrec hiter => ⟨?_, ?_⟩⟩
  · simp [parseICSData, processVEvents]
  · exact processVEvent_recurring_total env cname cid ev hrec hiter

/-- Witness for C4: the concrete unbounded daily event yields exactly
500 occurrences. -/
theorem recurrence_cap_witness :
    dailyVEvent.isRecurring = true ∧
    (processVEvent exEnv "Main" "c1" none none dailyVEvent).length = maxOccurrences :=
  ⟨rfl, ((recurrence_cap exEnv "Main" "c1" none none dailyVEvent).2 rfl
    (fun _ => rfl)).2⟩

/-- C6: an all-day event is materialized at exactly 12:00 UTC on its
calendar day (never midnight: the instant mod one day is half a day),
and shifting that instant by any offset strictly between -12h and +12h
stays within the same calendar day number. -/
theorem allday_noon_utc_anchoring (t : ICalTime) (dtz : Option String)
    (env : Env) (hd : t.isDate = true) :
    icalTimeToDate (some t) dtz env =
      some (jsMakeDay t.year (t.month - 1) t.day * 86400000 + 43200000) ∧
    (jsMakeDay t.year (t.month - 1) t.day * 86400000 + 43200000) % 86400000 =
      43200000 ∧
    ∀ off : Int, -43200000 < off → off < 43200000 →
      (jsMakeDay t.year (t.month - 1) t.day * 86400000 + 43200000 + off) / 86400000 =
        jsMakeDay t.year (t.month - 1) t.day := by
  refine ⟨?_, by omega, fun off h1 h2 => by omega⟩
  unfold icalTimeToDate
  dsimp only
  rw [if_pos hd]
  unfold dateUTC
  norm_num

/-- Witness for C6 at all-day 2024-11-05 rendered at UTC-6. -/
theorem allday_noon_utc_anchoring_witness :
    icalTimeToDate (some allDayNov5) none exEnv =
      some (jsMakeDay 2024 10 5 * 86400000 + 43200000) ∧
    (jsMakeDay 2024 10 5 * 86400000 + 43200000 + (-21600000)) / 86400000 =
      jsMakeDay 2024 10 5 := by
  have h := allday_noon_utc_anchoring allDayNov5 none exEnv rfl
  exact ⟨h.1, h.2.2 (-21600000) (by norm_num) (by norm_num)⟩

/-- C5 counterexample: syncing the same unchanged remote data twice (at
clocks 0 and 1) does NOT leave the source's occurrence rows
byte-for-byte identical — the bookkeeping timestamps differ. -/
theorem idempotent_replace_counterexample :
    ¬ (eventsBySource
        (syncSource (syncSource exDb okOracle exEnv "s1" 0).1 okOracle exEnv "s1" 1).1.events
        "s1" =
       eventsBySource (syncSource exDb okOracle exEnv "s1" 0).1.events "s1") := by
  decide

/-- C5 as amended: after a successful sync, re-running syncSource on the
same oracle succeeds with the identical result (same deterministic ids
and count), and the source's occurrence rows agree on every field except
the cache-layer createdAt/updatedAt clocks; when the two runs share a
clock the rows are byte-for-byte identical. -/
theorem idempotent_replace_amended (db : DB) (o : FetchOracle) (env : Env)
    (sourceId : String) (now₁ now₂ : Int)
    (h : (syncSource db o env sourceId now₁).2.success = true) :
    (syncSource (syncSource db o env sourceId now₁).1 o env sourceId now₂).2 =
      (syncSource db o env sourceId now₁).2 ∧
    (eventsBySource
        (syncSource (syncSource db o env sourceId now₁).1 o env sourceId now₂).1.events
        sourceId).map stripTimes =
      (eventsBySource (syncSource db o env sourceId now₁).1.events sourceId).map
        stripTimes ∧
    (now₂ = now₁ →
      eventsBySource
          (syncSource (syncSource db o env sourceId now₁).1 o env sourceId now₂).1.events
          sourceId =
        eventsBySource (syncSource db o env sourceId now₁).1.events sourceId) := by
  obtain ⟨src, events, hsrc, hg, hf, heq⟩ :=
    syncSource_success_spec db o env sourceId now₁ h
  have hrows := toDbEvent_mem_sourceId sourceId events
  have hsrc2 : getSourceById (syncSource db o env sourceId now₁).1.sources
      (syncSource db o env sourceId now₁).1.calendars sourceId = some src := by
    rw [heq]; exact hsrc
  have hg2 : backoffGateActive
      (getSyncMetadata (syncSource db o env sourceId now₁).1.syncMetadata sourceId)
      now₂ = false := by
    rw [heq]
    exact gate_inactive_after_success db.syncMetadata sourceId now₁ now₂
  have hf2 : fetchEventsFromSource (syncSource db o env sourceId now₁).1.calendars
      o env src = .ok events := by
    rw [heq]; exact hf
  have heq2 := syncSource_ok_eq (syncSource db o env sourceId now₁).1 o env
    sourceId now₂ src events hsrc2 hg2 hf2
  have hev1 : eventsBySource (syncSource db o env sourceId now₁).1.events sourceId =
      saveEventsList now₁ [] (events.map (toDbEvent sourceId)) := by
    rw [heq]
    exact eventsBySource_after_save db.events (events.map (toDbEvent sourceId))
      sourceId now₁ hrows
  have hev2 : eventsBySource
      (syncSource (syncSource db o env sourceId now₁).1 o env sourceId now₂).1.events
      sourceId =
      saveEventsList now₂ [] (events.map (toDbEvent sourceId)) := by
    rw [heq2]
    exact eventsBySource_after_save (syncSource db o env sourceId now₁).1.events
      (events.map (toDbEvent sourceId)) sourceId now₂ hrows
  refine ⟨?_, ?_, ?_⟩
  · rw [heq2, heq]
  · rw [hev1, hev2]
    exact strip_saveEventsList (events.map (toDbEvent sourceId)) [] [] now₂ now₁ rfl
  · intro hnn
    rw [hev1, hev2, hnn]

/-- Witness for C5's amended theorem at the concrete feed. -/
theorem idempotent_replace_amended_witness :
    (syncSource (syncSource exDb okOracle exEnv "s1" 0).1 okOracle exEnv "s1" 1).2 =
      (syncSource exDb okOracle exEnv "s1" 0).2 ∧
    (eventsBySource
        (syncSource (syncSource exDb okOracle exEnv "s1" 0).1 okOracle exEnv "s1" 1).1.events
        "s1").map stripTimes =
      (eventsBySource (syncSource exDb okOracle exEnv "s1" 0).1.events "s1").map
        stripTimes := by
  have h := idempotent_replace_amended exDb okOracle exEnv "s1" 0 1 (by decide)
  exact ⟨h.1, h.2.1⟩

/-- C7 counterexample: for an ics-feed source, one malformed feed body
fails the whole source's sync (it is not caught and skipped). -/
theorem malformed_skip_counterexample :
    (syncSource exDb badIcsOracle exEnv "s1" 0).2.success = false ∧
    (syncSource exDb badIcsOracle exEnv "s1" 0).2.error = some "Malformed" := by
  decide

/-- C7 as amended: for CalDAV sources a connection that lists its
collections never fails the sync on object contents — malformed objects
are skipped per object while sibling objects still contribute (shown at
a concrete mixed collection) — whereas for ics-feed sources a malformed
feed body propagates and fails the source's cycle. -/
theorem malformed_skip_amended :
    (∀ (cals : List CalendarRow) (o : FetchOracle) (env : Env) (src : Source)
       (rcs : List RemoteCalendar),
      src.sourceType ≠ "ics" → o.davConnect = .ok () → o.davCalendars = .ok rcs →
      ∃ evs, fetchEventsFromSource cals o env src = .ok evs) ∧
    ((syncSource exCaldavDb caldavMixedOracle exEnv "s7" 0).2 =
       { success := true, count := some 1, error := none } ∧
     (eventsBySource (syncSource exCaldavDb caldavMixedOracle exEnv "s7" 0).1.events
        "s7").length = 1) ∧
    (∀ (cals : List CalendarRow) (o : FetchOracle) (env : Env) (src : Source)
       (cal : Calendar) (resp : HttpResponse) (e : String),
      src.sourceType = "ics" → getEnabledCalendarsBySource cals src.id = [cal] →
      o.icsFetch cal.calendarUrl = .ok resp → 200 ≤ resp.status →
      resp.status < 300 → o.parse resp.body = .error e →
      fetchEventsFromSource cals o env src = .error e) := by
  refine ⟨?_, ⟨by decide, by decide⟩, ?_⟩
  · intro cals o env src rcs hty hcon hcals
    unfold fetchEventsFromSource
    dsimp only
    by_cases he : (getEnabledCalendarsBySource cals src.id).isEmpty = true
    · rw [if_pos he]; exact ⟨[], rfl⟩
    · rw [if_neg he, if_neg hty, hcon]
      dsimp only
      rw [hcals]
      dsimp only
      by_cases hr : rcs.isEmpty = true
      · rw [if_pos hr]; exact ⟨[], rfl⟩
      · rw [if_neg hr]; exact ⟨_, rfl⟩
  · intro cals o env src cal resp e hty hcal hfetch h200 h300 hparse
    unfold fetchEventsFromSource
    dsimp only
    rw [hcal]
    rw [if_neg (by simp), if_pos hty]
    unfold fetchIcsList
    rw [hfetch]
    dsimp only
    rw [if_neg (by omega), hparse]
    rfl

/-- Witness for C7's amended theorem: the CalDAV robustness conjunct at
the concrete mixed collection, and the ics propagation conjunct at the
concrete malformed feed. -/
theorem malformed_skip_amended_witness :
    (∃ evs, fetchEventsFromSource exCaldavDb.calendars caldavMixedOracle exEnv
      (rowToSource exCaldavSourceRow (getCalendarsBySource exCaldavDb.calendars "s7")) =
        .ok evs) ∧
    fetchEventsFromSource exDb.calendars badIcsOracle exEnv exSource =
      .error "Malformed" := by
  have h := malformed_skip_amended
  refine ⟨h.1 exCaldavDb.calendars caldavMixedOracle exEnv _
      [{ url := "https://dav.example/team" }] (by decide) rfl rfl, ?_⟩
  exact h.2.2 exDb.calendars badIcsOracle exEnv exSource
    { id := "c1", sourceId := "s1", name := "Main"
      calendarUrl := "https://cal.example/feed.ics", color := "#3788d8"
      enabled := true, createdAt := 0, updatedAt := 0 }
    { status := 200, statusText := "OK", body := "bad" } "Malformed"
    rfl (by decide) rfl (by decide) (by decide) rfl

/-- C8 counterexample: syncAllSources DOES invoke syncSource for a
source whose enabled flag is false (it only filters on is_active): the
disabled source is synced, successfully, and contributes a result. -/
theorem syncAll_disabled_source_counterexample :
    exDisabledSourceRow.enabled = false ∧
    (syncAllSources exDbDisabled (fun _ => okOracle) exEnv 0).2 =
      [{ success := true, count := some 1, error := none }] := by
  exact ⟨rfl, by decide⟩

/-- C8 as amended: syncAllSources invokes syncSource for every active
(non-soft-deleted) source — whether its enabled flag is set or not —
and aggregates one result per source; with distinct source ids each
source's result equals what a standalone syncSource from the pre-cycle
store yields with that source's own oracle, so one source's failure
never blocks, aborts, or alters another source's result. -/
theorem syncAll_sources_isolation (db : DB) (o : String → FetchOracle)
    (env : Env) (now : Int)
    (hp : (getAllSources db.sources db.calendars).Pairwise (fun a b => a.id ≠ b.id)) :
    (syncAllSources db o env now).2 =
      (getAllSources db.sources db.calendars).map
        (fun s => (syncSource db (o s.id) env s.id now).2) := by
  unfold syncAllSources
  exact syncAllSourcesGo_map o env now (getAllSources db.sources db.calendars)
    db db rfl rfl (fun _ _ => rfl) hp

/-- Witness for C8's amended theorem at a concrete store. -/
theorem syncAll_sources_isolation_witness :
    (syncAllSources exDbDisabled (fun _ => okOracle) exEnv 0).2 =
      (getAllSources exDbDisabled.sources exDbDisabled.calendars).map
        (fun s => (syncSource exDbDisabled ((fun _ => okOracle) s.id) exEnv s.id 0).2) :=
  syncAll_sources_isolation exDbDisabled (fun _ => okOracle) exEnv 0 (by decide)

/-- C10: saveEvents always returns the length of its input list, even
though events without convertible timestamps are skipped and duplicate
ids collapse; consequently syncSource can report success with an
occurrence count (2, at the concrete oracle) exceeding the rows actually
present in the cache for that source (1). -/
theorem saveEvents_count_overreport :
    (∀ (rows : List EventRow) (events : List DbEvent) (now : Int),
      (saveEvents rows events now).2 = events.length) ∧
    (syncSource exDb c10Oracle exEnv "s1" 5).2 =
      { success := true, count := some 2, error := none } ∧
    (eventsBySource (syncSource exDb c10Oracle exEnv "s1" 5).1.events "s1").length = 1 := by
  exact ⟨fun _ _ _ => rfl, by decide, by decide⟩

end Kitchen
